import Mathlib

/-!
Verification development for the Emponyoo WhatsApp assistant.

The definitions below are a shallow embedding of the JavaScript sources:
the current `index.js` (message pipeline, conversation state store, keyword
matcher, memory recall, moderation and chat-completion clients) and
`microservices/image.js` (image-generation quota).  JavaScript numbers are
modelled as `Int`/`Nat`/`ℚ`, JavaScript strings as Lean `String` (ASCII case
mapping), absent object keys as `Option`, and remote `fetch` calls as
explicit outcome parameters.  Regular-expression tests from config data are
modelled as boolean-valued predicates carried in the rule values.
-/

namespace WABot

/-! ## Generic string/list helpers (JS primitives) -/

/-- JS `Array.prototype.slice(-n)` / `String.slice(-n)` for `n > 0`:
the last `n` elements (all of them when the list is shorter). -/
def sliceLast (n : Nat) (l : List α) : List α :=
  l.drop (l.length - n)

/-- Boolean list-prefix test (first argument is the candidate prefix). -/
def isPrefixB [BEq α] : List α → List α → Bool
  | [], _ => true
  | _ :: _, [] => false
  | a :: as, b :: bs => a == b && isPrefixB as bs

/-- Boolean substring test on character lists: does `needle` occur
contiguously inside `haystack`?  Models JS `String.prototype.includes`. -/
def containsSub [BEq α] (haystack needle : List α) : Bool :=
  match haystack with
  | [] => isPrefixB needle []
  | _ :: t => isPrefixB needle haystack || containsSub t needle

/-- JS `String.prototype.toLowerCase` (ASCII range, which covers every
string the embedded code compares). -/
def lowerStr (s : String) : String :=
  ⟨s.data.map Char.toLower⟩

/-- ASCII whitespace, as matched by JS `trim` and `\s` on the inputs the
embedded code handles. -/
def isJsSpace (c : Char) : Bool :=
  c = ' ' ∨ c = '\t' ∨ c = '\n' ∨ c = '\r' ∨ c = '\x0b' ∨ c = '\x0c'

/-- JS `String.prototype.trim`. -/
def trimStr (s : String) : String :=
  ⟨((s.data.dropWhile isJsSpace).reverse.dropWhile isJsSpace).reverse⟩

/-- JS `String.prototype.startsWith`. -/
def startsWithStr (s p : String) : Bool :=
  isPrefixB p.data s.data

/-- JS `String.prototype.endsWith`. -/
def endsWithStr (s suffix : String) : Bool :=
  isPrefixB suffix.data.reverse s.data.reverse

/-- JS `String.prototype.includes` on strings. -/
def includesStr (haystack needle : String) : Bool :=
  containsSub haystack.data needle.data

/-! ## Configuration constants (`config.js`) -/

def MAX_SAVED_HISTORY : Nat := 50
def MAX_SAVED_RESPONSES : Nat := 100
def MAX_SAVED_QUICK_REPLIES : Nat := 100
def MAX_MESSAGE_LENGTH : Nat := 1200
def RATE_LIMIT_MS : Int := 2500
def CONTEXT_LIMIT : Nat := 12
def commandPrefixVal : String := "!"
def SAFE_FAILURE_MESSAGE : String := "I\x27m sorry, but I can\x27t help with that."
def SYSTEM_PROMPT : String := "You are Emponyoo, a warm, professional, and safety-conscious WhatsApp assistant."

/-- Model of `index.js`: canned reply of the rate-limit guard. -/
def rateLimitReply : String :=
  "I\x27m wrapping up another request—please try again in a moment."

/-- Model of `buildLengthWarning()` from `index.js`, with `MAX_MESSAGE_LENGTH = 1200`. -/
def lengthWarningReply : String :=
  "That message is quite long. Please keep it under 1200 characters so I can help effectively."

/-- Reply to a bare command prefix (`index.js` message handler). -/
def emptyCommandHint : String :=
  "Try !help for a list of available commands."

/-- Confirmation returned by the `reset` command. -/
def resetConfirmation : String :=
  "Our conversation history has been cleared. Feel free to start fresh!"

/-- Model of `getAIReply` catch-branch text. -/
def aiFailureReply : String :=
  "⚠️ Sorry, I couldn\x27t process that."

/-! ## Data model: per-chat conversation state (`index.js`) -/

inductive Role where
  | user
  | assistant
  | system
  deriving DecidableEq, Repr

/-- A rolling-history entry `{role, content}`. -/
structure HEntry where
  role : Role
  content : String
  deriving DecidableEq, Repr

/-- A quick-reply log entry `{userMessage, reply, timestamp}`. -/
structure QuickReply where
  userMessage : String
  reply : String
  timestamp : Int
  deriving DecidableEq, Repr

/-- A response-log record `{message, reply, source, timestamp}`. -/
structure RRecord where
  message : String
  reply : String
  source : String
  timestamp : Int
  deriving DecidableEq, Repr

/-- The cached per-chat state `{history, quickReplies}`. -/
structure ChatState where
  history : List HEntry
  quickReplies : List QuickReply
  deriving DecidableEq, Repr

/-- The slice of mutable global state of `index.js` that belongs to one chat
id: its `chatCache` entry, its `allResponses` entry (`none` = key absent),
and its `chatCooldowns` entry. -/
structure BotState where
  cache : Option ChatState
  responses : Option (List RRecord)
  cooldown : Option Int
  deriving DecidableEq, Repr

/-! ## Conversation state store (`index.js`) -/

/-- Model of `normaliseResponseRecord`, specialised to the string-typed arguments
`recordInteraction` passes: the record is dropped iff both `message` and
`reply` are empty. -/
def normaliseResponseRecord (message reply source : String) (timestamp : Int) :
    Option RRecord :=
  if message = "" ∧ reply = "" then none
  else some ⟨message, reply, source, timestamp⟩

/-- Model of `appendResponse(chatId, record)`: ensure the per-chat list exists, push
the normalised record, truncate to the newest `MAX_SAVED_RESPONSES`.
Returns the new per-chat list (the key is always present afterwards). -/
def appendResponse (responses : Option (List RRecord))
    (message reply source : String) (timestamp : Int) : List RRecord :=
  let cur := responses.getD []
  match normaliseResponseRecord message reply source timestamp with
  | none => cur
  | some r =>
      let pushed := cur ++ [r]
      if pushed.length > MAX_SAVED_RESPONSES then
        sliceLast MAX_SAVED_RESPONSES pushed
      else pushed

/-- History entries contributed by one response-log record during
`hydrateChatState`. -/
def recordHistoryEntries (r : RRecord) : List HEntry :=
  (if r.message ≠ "" then [⟨Role.user, r.message⟩] else []) ++
    (if r.reply ≠ "" then [⟨Role.assistant, r.reply⟩] else [])

/-- Model of `hydrateChatState(chatId)`: rebuild the cached state from the response
log, truncating both lists. -/
def hydrateChatState (responses : Option (List RRecord)) : ChatState :=
  let records := responses.getD []
  let history := records.flatMap recordHistoryEntries
  let quickReplies :=
    (records.filter (fun r => r.source = "predefined" ∧ r.reply ≠ "")).map
      (fun r => QuickReply.mk r.message r.reply r.timestamp)
  ⟨sliceLast MAX_SAVED_HISTORY history, sliceLast MAX_SAVED_QUICK_REPLIES quickReplies⟩

/-- Model of `getChatState(chatId)`: the cached state, hydrating on a cache miss. -/
def getChatState (s : BotState) : ChatState :=
  s.cache.getD (hydrateChatState s.responses)

/-- Model of `recordInteraction(chatId, userMessage, reply, source)` with the wall
clock passed explicitly. -/
def recordInteraction (s : BotState) (userMessage reply source : String)
    (timestamp : Int) : BotState :=
  let cs := getChatState s
  let h1 := cs.history ++ (if userMessage ≠ "" then [⟨Role.user, userMessage⟩] else [])
  let h2 := h1 ++ (if reply ≠ "" then [⟨Role.assistant, reply⟩] else [])
  let h3 := if h2.length > MAX_SAVED_HISTORY then sliceLast MAX_SAVED_HISTORY h2 else h2
  let pushQuick := source = "predefined" ∧ userMessage ≠ "" ∧ reply ≠ ""
  let q1 := if pushQuick then cs.quickReplies ++ [⟨userMessage, reply, timestamp⟩]
            else cs.quickReplies
  let q2 := if pushQuick ∧ q1.length > MAX_SAVED_QUICK_REPLIES then
              sliceLast MAX_SAVED_QUICK_REPLIES q1
            else q1
  { cache := some ⟨h3, q2⟩
    responses := some (appendResponse s.responses userMessage reply source timestamp)
    cooldown := s.cooldown }

/-- One interaction's arguments, for iterating `recordInteraction`. -/
structure InteractionArgs where
  userMessage : String
  reply : String
  source : String
  timestamp : Int
  deriving DecidableEq, Repr

/-- Fold a sequence of `recordInteraction` calls over the state. -/
def applyInteractions (s : BotState) : List InteractionArgs → BotState
  | [] => s
  | a :: rest => applyInteractions (recordInteraction s a.userMessage a.reply a.source a.timestamp) rest

/-- The `reset` case of `handleCommand` in `index.js`: overwrite the cache
entry with empty lists and delete the chat's response-log key. -/
def resetCommand (s : BotState) : BotState :=
  { cache := some ⟨[], []⟩
    responses := none
    cooldown := s.cooldown }

/-! ## Keyword matcher (`index.js`) -/

/-- A structured response payload; JS object fields that are absent read as
the empty string / `false`. -/
structure RespPayload where
  text : String
  caption : String
  mediaUrl : String
  stickerUrl : String
  sendAsSticker : Bool
  mediaBase64 : String
  mediaMimeType : String
  deriving DecidableEq, Repr

/-- Model of `{ text: s }` — the object `findKeywordResponse` builds around a plain
string response. -/
def RespPayload.ofText (s : String) : RespPayload :=
  ⟨s, "", "", "", false, "", ""⟩

/-- A response value as stored on a rule: a plain string or a payload. -/
inductive JResponse where
  | str (s : String)
  | payload (p : RespPayload)
  deriving DecidableEq, Repr

/-- A predefined/general rule `{keywords, response, caseSensitive}`. -/
structure PEntry where
  keywords : List String
  response : JResponse
  caseSensitive : Bool
  deriving DecidableEq, Repr

/-- Model of `hasResponseContent(response)`. -/
def hasResponseContent : JResponse → Bool
  | .str s => trimStr s ≠ ""
  | .payload p =>
      trimStr p.text ≠ "" ∨ trimStr p.caption ≠ "" ∨
        trimStr p.mediaUrl ≠ "" ∨ trimStr p.stickerUrl ≠ ""

/-- Model of `getResponseText(response)`. -/
def getResponseText : JResponse → String
  | .str s => s
  | .payload p =>
      if trimStr p.text ≠ "" then trimStr p.text
      else if trimStr p.caption ≠ "" then trimStr p.caption
      else ""

/-- Model of `describeResponseForLog(response)`. -/
def describeResponseForLog (r : JResponse) : String :=
  let t := getResponseText r
  if t ≠ "" then t
  else
    match r with
    | .payload p =>
        if p.stickerUrl ≠ "" ∨ p.sendAsSticker then "[sticker]"
        else if p.mediaUrl ≠ "" ∨ p.mediaBase64 ≠ "" then "[media]"
        else "[response]"
    | .str _ => "[response]"

/-- One keyword's test inside `findKeywordResponse`: blank keywords never
match; otherwise substring search on the raw text (case-sensitive rule) or
on the lowercased text with a lowercased keyword. -/
def keywordHit (text lowerText : String) (caseSensitive : Bool)
    (keyword : String) : Bool :=
  if trimStr keyword = "" then false
  else if caseSensitive then includesStr text keyword
  else includesStr lowerText (lowerStr keyword)

/-- Model of `findKeywordResponse(text, entries)`: first rule in list order with a
non-empty keyword list and usable response content whose keywords score a
substring hit; a plain-string response is wrapped as `{text: response}`. -/
def findKeywordResponse (text : String) (entries : List PEntry) : Option JResponse :=
  if text = "" ∨ entries = [] then none
  else
    let lowerText := lowerStr text
    go lowerText entries
where
  go (lowerText : String) : List PEntry → Option JResponse
    | [] => none
    | e :: rest =>
        if e.keywords = [] then go lowerText rest
        else if ¬ hasResponseContent e.response then go lowerText rest
        else if e.keywords.any (keywordHit text lowerText e.caseSensitive) then
          match e.response with
          | .str s => some (.payload (RespPayload.ofText s))
          | r => some r
        else go lowerText rest

/-- The matching criterion exactly as the specification words it: some
keyword of the rule occurs as a substring of the lowercased input (or of
the raw input when the rule is case-sensitive). -/
def specMatches (text : String) (e : PEntry) : Bool :=
  e.keywords.any fun k =>
    if e.caseSensitive then includesStr text k
    else includesStr (lowerStr text) (lowerStr k)

/-- The response the matcher reports for a rule (plain strings wrapped). -/
def responseOf (e : PEntry) : JResponse :=
  match e.response with
  | .str s => .payload (RespPayload.ofText s)
  | r => r

/-- Well-formedness that `normalisePredefinedEntry` guarantees for every
loaded rule: at least one keyword, no blank keywords, usable content. -/
def wellFormedEntry (e : PEntry) : Prop :=
  e.keywords ≠ [] ∧ (∀ k ∈ e.keywords, trimStr k ≠ "") ∧ hasResponseContent e.response

instance (e : PEntry) : Decidable (wellFormedEntry e) := by
  unfold wellFormedEntry; infer_instance

example : findKeywordResponse "a b"
    [⟨["a"], .str "R1", false⟩, ⟨["a", "b"], .str "R2", false⟩] =
      some (.payload (RespPayload.ofText "R1")) := by decide

/-! ## Memory recall engine (`index.js`: `extractKeywords`, `findMemoryAnswer`) -/

/-- The character class of `extractKeywords`' punctuation-stripping regex. -/
def punctChars : List Char :=
  ['"', '\x27', '\x60', ',', '.', '!', '?', ';', ':', '(', ')', '[', ']',
    '\x7b', '\x7d', '<', '>', '@', '#', '%', '^', '&', '*', '_', '+', '=',
    '/', '\\', '|', '-']

def isPunctChar (c : Char) : Bool := punctChars.contains c

/-- Split a character list on whitespace runs, dropping empty pieces (the
empty pieces JS `split(/\s+/)` can produce are removed by the length filter
that always follows, so this is observably the same). -/
def splitWordsAux : List Char → List Char → List String
  | [], acc => if acc = [] then [] else [⟨acc.reverse⟩]
  | c :: rest, acc =>
      if isJsSpace c then
        if acc = [] then splitWordsAux rest []
        else ⟨acc.reverse⟩ :: splitWordsAux rest []
      else splitWordsAux rest (c :: acc)

def splitWords (cs : List Char) : List String :=
  splitWordsAux cs []

/-- Model of `STOPWORDS` from `config.js` (the source lists `been` twice; a set
dedups it, and `contains` on this list behaves identically). -/
def STOPWORDS : List String :=
  ["the", "and", "for", "are", "but", "you", "your", "with", "this", "that",
    "have", "from", "what", "when", "where", "who", "why", "how", "which",
    "been", "were", "will", "would", "could", "should", "about", "there",
    "here", "they", "them", "their", "ours", "ourselves", "him", "her",
    "his", "hers", "its", "our", "out", "into", "onto", "because", "can"]

/-- Model of `extractKeywords(text)`: lowercase, replace punctuation with spaces,
split on whitespace, keep words longer than 2 characters that are not
stopwords. -/
def extractKeywords (text : String) : List String :=
  let lowered := text.data.map Char.toLower
  let replaced := lowered.map fun c => if isPunctChar c then ' ' else c
  (splitWords replaced).filter fun w => w.length > 2 ∧ ¬ STOPWORDS.contains w

/-- The loop body of `findMemoryAnswer`: fold one history entry into the
`(bestMatch, bestScore)` accumulator. -/
def scanStep (keywordSet : List String) (acc : Option HEntry × ℚ)
    (entry : HEntry) : Option HEntry × ℚ :=
  if entry.role ≠ Role.user then acc
  else
    let entryKeywords := extractKeywords entry.content
    if entryKeywords.length = 0 then acc
    else
      let overlap := (entryKeywords.filter fun w => keywordSet.contains w).length
      if overlap = 0 then acc
      else
        let score : ℚ := (overlap : ℚ) / (keywordSet.length : ℚ)
        if acc.2 < score then (some entry, score) else acc

/-- Model of `findMemoryAnswer(chatId, message)` over the chat's cached state.  The
JS `Set` of query keywords is modelled by `List.dedup` (only membership and
cardinality of the set are ever used). -/
def findMemoryAnswer (cs : ChatState) (message : String) : Option String :=
  let keywords := extractKeywords message
  if keywords.length = 0 then none
  else
    let keywordSet := keywords.dedup
    let best := cs.history.foldl (scanStep keywordSet) (none, (0 : ℚ))
    match best.1 with
    | none => none
    | some bestMatch =>
        if keywords.length ≤ 2 ∧ best.2 < (0.6 : ℚ) then none
        else if keywords.length > 2 ∧ best.2 < (0.34 : ℚ) then none
        else some ("Earlier you mentioned: \"" ++ bestMatch.content ++ "\"")

/-! Specification-side formulations of the recall algorithm.  `claimRecall`
follows the claim's words (overlap is a *set intersection*);
`amendedRecall` differs only in counting entry tokens with multiplicity,
which is what the source computes. -/

/-- Overlap as the source computes it: the number of tokens of the entry
(with multiplicity) that are query keywords. -/
def entryOverlap (keywordSet : List String) (entry : HEntry) : Nat :=
  ((extractKeywords entry.content).filter fun w => keywordSet.contains w).length

/-- Overlap as the claim words it: the cardinality of the intersection of
the two keyword sets. -/
def claimOverlap (keywordSet : List String) (entry : HEntry) : Nat :=
  ((extractKeywords entry.content).dedup.filter fun w => keywordSet.contains w).length

def entryScore (keywordSet : List String) (entry : HEntry) : ℚ :=
  (entryOverlap keywordSet entry : ℚ) / (keywordSet.length : ℚ)

def claimScore (keywordSet : List String) (entry : HEntry) : ℚ :=
  (claimOverlap keywordSet entry : ℚ) / (keywordSet.length : ℚ)

/-- A history entry that competes for "best match": user-authored with a
positive overlap. -/
def isCandidate (keywordSet : List String) (e : HEntry) : Bool :=
  e.role = Role.user ∧ 0 < entryOverlap keywordSet e

def isClaimCandidate (keywordSet : List String) (e : HEntry) : Bool :=
  e.role = Role.user ∧ 0 < claimOverlap keywordSet e

/-- Acceptance thresholds and reply template, applied to a chosen best
entry and its score. -/
def acceptBest (keywordCount : Nat) (score : ℚ) (best : HEntry) : Option String :=
  if keywordCount ≤ 2 ∧ score < (0.6 : ℚ) then none
  else if keywordCount > 2 ∧ score < (0.34 : ℚ) then none
  else some ("Earlier you mentioned: \"" ++ best.content ++ "\"")

/-- The claim's recall function: highest `claimScore` user entry (ties to
the earliest, via `List.argmax`), thresholds 0.6 / 0.34. -/
def claimRecall (cs : ChatState) (message : String) : Option String :=
  let keywords := extractKeywords message
  if keywords.length = 0 then none
  else
    let kset := keywords.dedup
    match (cs.history.filter (isClaimCandidate kset)).argmax (claimScore kset) with
    | none => none
    | some best => acceptBest keywords.length (claimScore kset best) best

/-- The amended recall function: same shape, but overlap counts entry
tokens with multiplicity, as the source does. -/
def amendedRecall (cs : ChatState) (message : String) : Option String :=
  let keywords := extractKeywords message
  if keywords.length = 0 then none
  else
    let kset := keywords.dedup
    match (cs.history.filter (isCandidate kset)).argmax (entryScore kset) with
    | none => none
    | some best => acceptBest keywords.length (entryScore kset best) best

/-! ## Moderation client (`index.js`: `moderateContent` and its cache) -/

structure ModResult where
  flagged : Bool
  categories : List String
  rtype : String
  deriving DecidableEq, Repr

/-- A cached moderation entry `{result, expiresAt, createdAt}`. -/
structure ModCacheEntry where
  result : ModResult
  expiresAt : Int
  createdAt : Int
  deriving DecidableEq, Repr

/-- What one `fetch` of the moderation service can come back with: a JSON
body of an OK response (each field `Option` because the JSON may omit it),
an HTTP error status, or a thrown/timed-out request. -/
inductive ModFetch where
  | ok (flagged : Option Bool) (categories : Option (List String)) (rtype : Option String)
  | httpError
  | networkError
  deriving DecidableEq, Repr

/-- Model of `getModerationCacheKey(text, type)`. -/
def getModerationCacheKey (text ty : String) : String :=
  ty ++ ":" ++ text

/-- Model of `getCachedModerationResult(cacheKey)` (the eviction side effect on an
expired entry does not affect the returned value). -/
def getCachedModerationResult (cache : List (String × ModCacheEntry))
    (now : Int) (cacheKey : String) : Option ModResult :=
  match cache.lookup cacheKey with
  | none => none
  | some e => if e.expiresAt < now then none else some e.result

/-- Model of `moderateContent(text, type)`: trim, short-circuit empty text, consult
the cache, then interpret the fetch outcome; any failure degrades to an
unflagged result. -/
def moderateContent (useCache : Bool) (cache : List (String × ModCacheEntry))
    (now : Int) (text ty : String) (fetched : ModFetch) : ModResult :=
  let normalisedText := trimStr text
  if normalisedText = "" then ⟨false, [], ty⟩
  else
    let cached :=
      if useCache then
        getCachedModerationResult cache now (getModerationCacheKey normalisedText ty)
      else none
    match cached with
    | some r => r
    | none =>
        match fetched with
        | .ok flagged categories rtype =>
            ⟨flagged.getD false, categories.getD [],
              match rtype with
              | some s => if s = "" then ty else s
              | none => ty⟩
        | .httpError => ⟨false, [], ty⟩
        | .networkError => ⟨false, [], ty⟩

/-! ## Chat-completion client and generative reply (`index.js`) -/

/-- What one `fetch` of the chat service can come back with. -/
inductive ChatFetch where
  | ok (reply : Option String)
  | httpError
  | networkError
  | timeout
  deriving DecidableEq, Repr

inductive ChatError where
  | emptyMessages
  | emptyReply
  | httpError
  | networkError
  | timeout
  deriving DecidableEq, Repr

/-- Model of `requestChatCompletion({messages})`: reject an empty message list, trim
the service's reply, reject an empty reply, propagate failures as thrown
errors. -/
def requestChatCompletion (messages : List HEntry) (fetched : ChatFetch) :
    Except ChatError String :=
  if messages = [] then .error .emptyMessages
  else
    match fetched with
    | .ok raw =>
        let reply := trimStr (raw.getD "")
        if reply = "" then .error .emptyReply else .ok reply
    | .httpError => .error .httpError
    | .networkError => .error .networkError
    | .timeout => .error .timeout

/-- The context assembly in `getAIReply`: system prompt, last
`CONTEXT_LIMIT` history entries, then the new user message. -/
def buildContextMessages (cs : ChatState) (message : String) : List HEntry :=
  ⟨Role.system, SYSTEM_PROMPT⟩ :: (sliceLast CONTEXT_LIMIT cs.history ++ [⟨Role.user, message⟩])

/-- Model of `getAIReply(chatId, message)`: a successful completion's text, or the
fixed apology on any error. -/
def getAIReply (cs : ChatState) (message : String) (fetched : ChatFetch) : String :=
  match requestChatCompletion (buildContextMessages cs message) fetched with
  | .ok reply => reply
  | .error _ => aiFailureReply

/-! ## Image-generation quota (`microservices/image.js`) -/

def DEFAULT_LIMIT : Nat := 3
def WINDOW_MS : Int := 86400000

/-- Model of `pruneUsage(chatId)`: keep only timestamps still inside the trailing
window (the pruned list is also stored back). -/
def pruneUsage (entries : List Int) (now : Int) : List Int :=
  entries.filter fun t => now - t < WINDOW_MS

structure QuotaUsage where
  limit : Nat
  remaining : Nat
  resetInMs : Int
  deriving DecidableEq, Repr

inductive ImageResp where
  | rateLimited (usage : QuotaUsage)
  | success (usage : QuotaUsage)
  | failure
  deriving DecidableEq, Repr

/-- The `POST /image` quota logic for one chat: prune, compare the count to
the limit (429 without recording on exhaustion), otherwise attempt
generation (`genOk` abstracts the model call) and record the new timestamp
on success.  Returns the response and the stored usage list. -/
def imageRequest (entries : List Int) (now : Int) (genOk : Bool) :
    ImageResp × List Int :=
  let recent := pruneUsage entries now
  if recent.length ≥ DEFAULT_LIMIT then
    let oldest := recent.headD 0
    let resetInMs := max (WINDOW_MS - (now - oldest)) 0
    (.rateLimited ⟨DEFAULT_LIMIT, 0, resetInMs⟩, recent)
  else if genOk then
    let recent2 := recent ++ [now]
    let remaining := DEFAULT_LIMIT - recent2.length
    (.success ⟨DEFAULT_LIMIT, remaining, max (WINDOW_MS - (now - recent2.headD 0)) 0⟩,
      recent2)
  else (.failure, recent)

/-! ## Safety filter, rate limiter, mention-all trigger (`index.js`) -/

/-- A sensitive-data rule from `config.js`: the regex test is modelled as a
boolean predicate, the canned warning is the rule's `response`. -/
structure SensRule where
  test : String → Bool
  response : String

/-- Model of `checkSensitivePatterns(text)`. -/
def checkSensitivePatterns (rules : List SensRule) (text : String) : Option String :=
  if text = "" then none
  else (rules.find? fun r => r.test text).map SensRule.response

/-- Model of `isRateLimited(chatId)`: returns the verdict and the updated cooldown
entry (the stamp is refreshed only when the chat is *not* limited). -/
def isRateLimited (cooldown : Option Int) (now : Int) : Bool × Option Int :=
  let last := cooldown.getD 0
  if now - last < RATE_LIMIT_MS then (true, cooldown)
  else (false, some now)

/-- Separator characters accepted after a mention-all trigger word
(the `[\s,.!?:;\-]` class). -/
def mentionAllSeps : List Char :=
  [' ', '\t', '\n', '\r', '\x0b', '\x0c', ',', '.', '!', '?', ':', ';', '-']

/-- Model of `isMentionAllTrigger(message)`. -/
def isMentionAllTrigger (message : String) : Bool :=
  let trimmed := lowerStr (trimStr message)
  if trimmed = "" then false
  else if trimmed = "everyone" ∨ trimmed = "@everyone" then true
  else
    ["@everyone", "everyone"].any fun p =>
      startsWithStr trimmed p &&
        (let remainder : List Char := trimmed.data.drop p.data.length
         match remainder with
         | [] => false
         | c :: _ => mentionAllSeps.contains c)

/-! ## Message pipeline (`index.js`: `tryHandleGeneralMessage` and the
`client.on('message')` handler) -/

/-- The resolution of the external effects one message-handling run can
perform.  Remote moderation outcomes are a function of `(text, type)` —
the *result* of `moderateContent`, whose internals are modelled above —
and the regex-driven eligibility quantities of the raw body are passed in
resolved form. -/
structure HandlerEnv where
  /-- Model of `BOT_NAME_REGEX.test(rawBody)`. -/
  botNameInBody : Bool
  /-- Model of `rawBody.replace(BOT_NAME_REPLACE_REGEX, '').trim()`. -/
  strippedName : String
  /-- Set when the mention loop found the bot's own id (implies `selfId` was set). -/
  selfMentioned : Bool
  /-- Model of `rawBody.replace(/@\S+/g, ' ').replace(/\s+/g, ' ').trim()`. -/
  strippedMentions : String
  generalRules : List PEntry
  predefinedRules : List PEntry
  sensitiveRules : List SensRule
  /-- resolved `moderateContent(text, type).flagged`. -/
  moderate : String → String → Bool
  chatFetch : ChatFetch
  /-- resolved chat/contact lookups of `tryHandleMentionAll`. -/
  mentionChatUnavailable : Bool
  mentionIsGroup : Bool
  mentionText : Option String
  /-- replies of `handleCommand` cases other than `reset`. -/
  commandReply : String → String → String
  now : Int

/-- Result of one pipeline stage or of the whole handler: the payloads
passed to `sendWithTyping` and the final per-chat state. -/
structure HandleOutcome where
  handled : Bool
  sent : List JResponse
  state : BotState
  deriving DecidableEq, Repr

/-- The common "send canned reply, stamp the cooldown, record the
interaction" tail of the guard branches. -/
def sendAndRecord (s : BotState) (cleanMessage reply source : String)
    (now : Int) : HandleOutcome :=
  ⟨true, [.str reply],
    recordInteraction { s with cooldown := some now } cleanMessage reply source now⟩

/-- Model of `tryHandleMentionAll(message, cleanMessage, chatId)`: `none` models a
`false` return (no effects), `some` a handled message. -/
def tryHandleMentionAll (env : HandlerEnv) (s : BotState) (cleanMessage : String) :
    Option HandleOutcome :=
  if ¬ isMentionAllTrigger cleanMessage then none
  else if env.mentionChatUnavailable then none
  else if ¬ env.mentionIsGroup then none
  else
    match env.mentionText with
    | none =>
        some (sendAndRecord s cleanMessage
          "I couldn\x27t find anyone to mention in this group." "mention-all" env.now)
    | some text =>
        some ⟨true, [.payload ⟨text, "", "", "", false, "", ""⟩],
          recordInteraction { s with cooldown := some env.now } cleanMessage text
            "mention-all" env.now⟩

/-- Model of `tryHandleGeneralMessage(message, cleanMessage, chatId)`. -/
def tryHandleGeneralMessage (env : HandlerEnv) (s : BotState)
    (cleanMessage chatId : String) : HandleOutcome :=
  if cleanMessage = "" ∨ ¬ endsWithStr chatId "@g.us" then ⟨false, [], s⟩
  else if startsWithStr cleanMessage commandPrefixVal then ⟨false, [], s⟩
  else
    match tryHandleMentionAll env s cleanMessage with
    | some out => out
    | none =>
        match findKeywordResponse cleanMessage env.generalRules with
        | none => ⟨false, [], s⟩
        | some generalResponse =>
            if cleanMessage.length > MAX_MESSAGE_LENGTH then
              sendAndRecord s cleanMessage lengthWarningReply "safety" env.now
            else
              match checkSensitivePatterns env.sensitiveRules cleanMessage with
              | some warning => sendAndRecord s cleanMessage warning "safety" env.now
              | none =>
                  let rl := isRateLimited s.cooldown env.now
                  let s1 := { s with cooldown := rl.2 }
                  if rl.1 then
                    sendAndRecord s1 cleanMessage rateLimitReply "system" env.now
                  else if env.moderate cleanMessage "input" then
                    sendAndRecord s1 cleanMessage SAFE_FAILURE_MESSAGE "safety" env.now
                  else
                    let moderationTarget := getResponseText generalResponse
                    let flaggedOut :=
                      moderationTarget ≠ "" ∧ env.moderate moderationTarget "output"
                    let replyPayload :=
                      if flaggedOut then JResponse.str SAFE_FAILURE_MESSAGE
                      else generalResponse
                    let outputSource := if flaggedOut then "safety" else "general"
                    let recordedReply :=
                      match replyPayload with
                      | .str str => str
                      | p => describeResponseForLog p
                    ⟨true, [replyPayload],
                      recordInteraction { s1 with cooldown := some env.now } cleanMessage
                        recordedReply outputSource env.now⟩

/-- The eligibility gate at the top of the message handler: returns
`(shouldRespond, cleanMessage)`. -/
def computeEligibility (env : HandlerEnv) (rawBody chatId : String) :
    Bool × String :=
  let cleanMessage := trimStr rawBody
  if endsWithStr chatId "@s.whatsapp.net" then (true, cleanMessage)
  else if endsWithStr chatId "@g.us" then
    if env.botNameInBody then
      (true, if env.strippedName ≠ "" then env.strippedName else cleanMessage)
    else if env.selfMentioned then
      (true, if env.strippedMentions ≠ "" then env.strippedMentions else cleanMessage)
    else (false, cleanMessage)
  else (false, cleanMessage)

/-- Command-line parsing in the handler: split the (trimmed, non-empty)
command body into a lowercased name and the argument string. -/
def parseCommand (commandBody : String) : String × String :=
  let parts := splitWords commandBody.data
  let commandNameRaw := parts.headD ""
  let commandName := lowerStr commandNameRaw
  let args :=
    if parts.length > 1 then trimStr ⟨commandBody.data.drop commandNameRaw.length⟩
    else ""
  (commandName, args)

/-- Model of `handleCommand(command, chatId, args)`: the `reset` case is modelled
in full (it is the only case that mutates the per-chat state); every other
case's reply text comes from the environment. -/
def handleCommandModel (env : HandlerEnv) (s : BotState) (name args : String) :
    String × BotState :=
  if name = "reset" then (resetConfirmation, resetCommand s)
  else (env.commandReply name args, s)

/-- Result of the whole `client.on('message')` handler for one message. -/
structure MessageOutcome where
  sent : List JResponse
  state : BotState
  deriving DecidableEq, Repr

/-- The `client.on('message')` handler of `index.js`. -/
def onMessage (env : HandlerEnv) (s : BotState) (rawBody chatId : String) :
    MessageOutcome :=
  let elig := computeEligibility env rawBody chatId
  let shouldRespond := elig.1
  let cleanMessage := elig.2
  let general := tryHandleGeneralMessage env s cleanMessage chatId
  if general.handled then ⟨general.sent, general.state⟩
  else if ¬ shouldRespond ∨ cleanMessage = "" then ⟨[], s⟩
  else if startsWithStr cleanMessage commandPrefixVal then
    let commandBody := trimStr ⟨cleanMessage.data.drop commandPrefixVal.length⟩
    if commandBody = "" then
      ⟨[.str emptyCommandHint], { s with cooldown := some env.now }⟩
    else
      let parsed := parseCommand commandBody
      let hc := handleCommandModel env s parsed.1 parsed.2
      ⟨[.str hc.1], { hc.2 with cooldown := some env.now }⟩
  else if cleanMessage.length > MAX_MESSAGE_LENGTH then
    let out := sendAndRecord s cleanMessage lengthWarningReply "safety" env.now
    ⟨out.sent, out.state⟩
  else
    match checkSensitivePatterns env.sensitiveRules cleanMessage with
    | some warning =>
        let out := sendAndRecord s cleanMessage warning "safety" env.now
        ⟨out.sent, out.state⟩
    | none =>
        let rl := isRateLimited s.cooldown env.now
        let s1 := { s with cooldown := rl.2 }
        if rl.1 then
          let out := sendAndRecord s1 cleanMessage rateLimitReply "system" env.now
          ⟨out.sent, out.state⟩
        else if env.moderate cleanMessage "input" then
          let out := sendAndRecord s1 cleanMessage SAFE_FAILURE_MESSAGE "safety" env.now
          ⟨out.sent, out.state⟩
        else
          let chain : JResponse × String :=
            match findKeywordResponse cleanMessage env.predefinedRules with
            | some r => (r, "predefined")
            | none =>
                match findMemoryAnswer (getChatState s1) cleanMessage with
                | some m => (.str m, "memory")
                | none =>
                    (.str (getAIReply (getChatState s1) cleanMessage env.chatFetch),
                      "openai")
          let replyPayload := chain.1
          let moderationTarget :=
            match replyPayload with
            | .str str => str
            | p => getResponseText p
          let flaggedOut := moderationTarget ≠ "" ∧ env.moderate moderationTarget "output"
          let finalPayload :=
            if flaggedOut then JResponse.str SAFE_FAILURE_MESSAGE else replyPayload
          let outputSource := if flaggedOut then "safety" else chain.2
          let recordedReply :=
            match finalPayload with
            | .str str => str
            | p => describeResponseForLog p
          ⟨[finalPayload],
            recordInteraction { s1 with cooldown := some env.now } cleanMessage
              recordedReply outputSource env.now⟩

/-! ## Theorems -/

/-- Claim C5: for every input text and type, when the remote moderation
call fails (network error, timeout, or a non-OK HTTP status) and no cached
verdict applies, the moderation check resolves to an unflagged result with
an empty category list, so a moderation-service failure never blocks the
conversation. -/
theorem moderateContent_fails_open (useCache : Bool)
    (cache : List (String × ModCacheEntry)) (now : Int) (text ty : String)
    (fetched : ModFetch)
    (hfail : fetched = ModFetch.httpError ∨ fetched = ModFetch.networkError)
    (hmiss : useCache = true →
      getCachedModerationResult cache now
        (getModerationCacheKey (trimStr text) ty) = none) :
    (moderateContent useCache cache now text ty fetched).flagged = false ∧
      (moderateContent useCache cache now text ty fetched).categories = [] := by
  unfold moderateContent
  by_cases hempty : trimStr text = ""
  · simp [hempty]
  · cases huse : useCache
    · rcases hfail with h | h <;> simp [hempty, h]
    · rcases hfail with h | h <;> simp [hempty, h, hmiss huse]

/-- Witness for C5 at a concrete failing request. -/
theorem moderateContent_fails_open_witness :
    (moderateContent false [] 0 "hello" "input" ModFetch.networkError).flagged = false ∧
      (moderateContent false [] 0 "hello" "input" ModFetch.networkError).categories = [] :=
  moderateContent_fails_open false [] 0 "hello" "input" ModFetch.networkError
    (Or.inr rfl) (fun h => nomatch h)

/-- Claim C6: for every chat state and message, the generative reply
builder returns a non-empty string, and on any chat-service failure it
returns the fixed degraded-service apology instead of propagating the
error — so the last link of the reply-source chain never yields an empty
reply. -/
theorem requestChatCompletion_ok_nonempty (messages : List HEntry)
    (f : ChatFetch) (r : String)
    (h : requestChatCompletion messages f = Except.ok r) : r ≠ "" := by
  unfold requestChatCompletion at h
  split at h
  · exact absurd h (by simp)
  · cases f with
    | ok raw =>
        simp only at h
        split at h
        · exact absurd h (by simp)
        · next hne =>
            simp only [Except.ok.injEq] at h
            rwa [← h]
    | httpError => exact absurd h (by simp)
    | networkError => exact absurd h (by simp)
    | timeout => exact absurd h (by simp)

/-- Claim C6: for every chat state and message, the generative reply
builder returns a non-empty string, and on any chat-service failure it
returns the fixed degraded-service apology instead of propagating the
error — so the last link of the reply-source chain never yields an empty
reply. -/
theorem getAIReply_total (cs : ChatState) (message : String) (fetched : ChatFetch) :
    getAIReply cs message fetched ≠ "" ∧
      ∀ e : ChatError,
        requestChatCompletion (buildContextMessages cs message) fetched =
            Except.error e →
          getAIReply cs message fetched = aiFailureReply := by
  constructor
  · unfold getAIReply
    cases hreq : requestChatCompletion (buildContextMessages cs message) fetched with
    | ok reply =>
        simpa using requestChatCompletion_ok_nonempty _ _ _ hreq
    | error e => exact (by decide : aiFailureReply ≠ "")
  · intro e he
    unfold getAIReply
    simp [he]

/-- Witness for C6 at a concrete failed completion. -/
theorem getAIReply_total_witness :
    getAIReply ⟨[], []⟩ "hi" ChatFetch.networkError ≠ "" ∧
      getAIReply ⟨[], []⟩ "hi" ChatFetch.networkError = aiFailureReply :=
  ⟨(getAIReply_total ⟨[], []⟩ "hi" ChatFetch.networkError).1,
    (getAIReply_total ⟨[], []⟩ "hi" ChatFetch.networkError).2
      ChatError.networkError (by rfl)⟩

/-- Claim C7: resetting a chat twice in a row yields, after each call, an
empty history and an empty quick-reply list, and the chat's response-log
entry is absent; the second reset observes and produces the same cleared
state as the first. -/
theorem resetCommand_twice_clears (s : BotState) :
    getChatState (resetCommand s) = ⟨[], []⟩ ∧
      (resetCommand s).responses = none ∧
      getChatState (resetCommand (resetCommand s)) = ⟨[], []⟩ ∧
      (resetCommand (resetCommand s)).responses = none ∧
      resetCommand (resetCommand s) = resetCommand s := by
  simp [resetCommand, getChatState]

/-- Does a quota response report a successful generation? -/
def ImageResp.isSuccess : ImageResp → Bool
  | .success _ => true
  | _ => false

/-- Claim C9: with the default limit of 3, three in-window generations
exhaust the quota: the next request is rejected with `remaining = 0`, a
positive `resetInMs`, and an unchanged usage list; once the window has
elapsed for the oldest timestamp a request succeeds again. -/
theorem imageRequest_quota_cycle (t1 t2 t3 now now2 : Int) (g : Bool)
    (h1 : now - t1 < WINDOW_MS) (h2 : now - t2 < WINDOW_MS)
    (h3 : now - t3 < WINDOW_MS) (h4 : WINDOW_MS ≤ now2 - t1) :
    imageRequest [t1, t2, t3] now g =
        (.rateLimited ⟨DEFAULT_LIMIT, 0, WINDOW_MS - (now - t1)⟩, [t1, t2, t3]) ∧
      0 < WINDOW_MS - (now - t1) ∧
      (imageRequest [t1, t2, t3] now2 true).1.isSuccess = true := by
  refine ⟨?_, by omega, ?_⟩
  · have hp : pruneUsage [t1, t2, t3] now = [t1, t2, t3] := by
      simp [pruneUsage, h1, h2, h3]
    have hmax : max (WINDOW_MS - (now - t1)) 0 = WINDOW_MS - (now - t1) := by omega
    simp [imageRequest, hp, hmax, DEFAULT_LIMIT]
  · have hnot : (decide (now2 - t1 < WINDOW_MS)) = false := by
      simp only [decide_eq_false_iff_not]
      omega
    have hsub : pruneUsage [t1, t2, t3] now2 =
        List.filter (fun t => decide (now2 - t < WINDOW_MS)) [t2, t3] := by
      simp [pruneUsage, List.filter, hnot]
    have hlen : (pruneUsage [t1, t2, t3] now2).length < DEFAULT_LIMIT := by
      rw [hsub]
      have hle := List.length_filter_le (fun t => decide (now2 - t < WINDOW_MS)) [t2, t3]
      simp only [List.length_cons, List.length_nil] at hle
      exact lt_of_le_of_lt hle (by decide)
    simp only [imageRequest]
    rw [if_neg (not_le.mpr hlen)]
    simp [ImageResp.isSuccess]

/-- Witness for C9 at concrete timestamps. -/
theorem imageRequest_quota_cycle_witness :
    imageRequest [0, 0, 0] 1 false =
        (.rateLimited ⟨DEFAULT_LIMIT, 0, WINDOW_MS - 1⟩, [0, 0, 0]) ∧
      (0 : Int) < WINDOW_MS - 1 ∧
      (imageRequest [0, 0, 0] 86400000 true).1.isSuccess = true := by
  have h := imageRequest_quota_cycle 0 0 0 1 86400000 false (by decide) (by decide)
    (by decide) (by decide)
  simpa using h

/-! ### Keyword matcher: first match wins (C8) -/

theorem any_congr_on {l : List α} {f g : α → Bool}
    (h : ∀ a ∈ l, f a = g a) : l.any f = l.any g := by
  induction l with
  | nil => rfl
  | cons a t ih =>
      simp only [List.any_cons, h a (by simp),
        ih fun b hb => h b (by simp [hb])]

theorem ne_empty_of_trimStr_ne {k : String} (hk : trimStr k ≠ "") : k ≠ "" := by
  intro h
  exact hk (by simp [h, trimStr, isJsSpace])

theorem lowerStr_ne_empty {k : String} (hk : k ≠ "") : lowerStr k ≠ "" := by
  cases k with
  | mk d =>
      cases d with
      | nil => exact absurd rfl hk
      | cons c t =>
          intro h
          have hd : c.toLower :: t.map Char.toLower = ([] : List Char) :=
            congrArg String.data h
          exact absurd hd (List.cons_ne_nil _ _)

theorem includesStr_empty_left {k : String} (hk : k ≠ "") :
    includesStr "" k = false := by
  unfold includesStr containsSub
  cases k with
  | mk d =>
      cases d with
      | nil => exact absurd rfl hk
      | cons c t => simp [isPrefixB]

theorem keywordHit_eq_spec (text : String) (cs : Bool) {k : String}
    (hk : trimStr k ≠ "") :
    keywordHit text (lowerStr text) cs k =
      (if cs then includesStr text k else includesStr (lowerStr text) (lowerStr k)) := by
  unfold keywordHit
  rw [if_neg hk]

theorem findKeywordResponse_go_eq (text : String) (entries : List PEntry)
    (hwf : ∀ e ∈ entries, wellFormedEntry e) :
    findKeywordResponse.go text (lowerStr text) entries =
      (entries.find? (specMatches text)).map responseOf := by
  induction entries with
  | nil => rfl
  | cons e rest ih =>
      obtain ⟨hk, hks, hc⟩ := hwf e (by simp)
      have hrest := ih fun e' he' => hwf e' (by simp [he'])
      have hany : e.keywords.any (keywordHit text (lowerStr text) e.caseSensitive) =
          specMatches text e := by
        unfold specMatches
        exact any_congr_on fun k hkm => keywordHit_eq_spec text e.caseSensitive (hks k hkm)
      unfold findKeywordResponse.go
      rw [if_neg hk, if_neg (by simp [hc]), hany]
      cases hm : specMatches text e with
      | true =>
          rw [if_pos rfl, List.find?_cons_of_pos _ hm]
          cases hresp : e.response <;> simp [responseOf, hresp]
      | false =>
          rw [if_neg (by simp), List.find?_cons_of_neg _ (by simp [hm])]
          exact hrest

/-- Claim C8: for every rule list (well-formed, as the loader guarantees)
and input text, the keyword matcher returns the response of the first rule
in list order with a substring hit — first match wins, not best match; in
particular with rules `[a ↦ R1, {a,b} ↦ R2]` and input `"a b"` it returns
`R1`. -/
theorem findKeywordResponse_first_match (text : String) (entries : List PEntry)
    (hwf : ∀ e ∈ entries, wellFormedEntry e) :
    (findKeywordResponse text entries =
        (entries.find? (specMatches text)).map responseOf) ∧
      findKeywordResponse "a b"
          [⟨["a"], .str "R1", false⟩, ⟨["a", "b"], .str "R2", false⟩] =
        some (.payload (RespPayload.ofText "R1")) := by
  refine ⟨?_, by decide⟩
  by_cases htext : text = ""
  · have hnone : entries.find? (specMatches text) = none := by
      rw [List.find?_eq_none]
      intro e he
      obtain ⟨hk, hks, hc⟩ := hwf e he
      subst htext
      simp only [specMatches, List.any_eq_true]
      rintro ⟨k, hkm, hit⟩
      have hne := ne_empty_of_trimStr_ne (hks k hkm)
      have h1 : includesStr "" k = false := includesStr_empty_left hne
      have h2 : includesStr (lowerStr "") (lowerStr k) = false := by
        have hl : lowerStr "" = "" := rfl
        rw [hl]
        exact includesStr_empty_left (lowerStr_ne_empty hne)
      split at hit
      · simp [h1] at hit
      · simp [h2] at hit
    rw [hnone]
    unfold findKeywordResponse
    simp [htext]
  · by_cases hnil : entries = []
    · subst hnil
      simp [findKeywordResponse]
    · unfold findKeywordResponse
      rw [if_neg (by simp [htext, hnil])]
      exact findKeywordResponse_go_eq text entries hwf

/-- Witness for C8 at the concrete example rules. -/
theorem findKeywordResponse_first_match_witness :
    findKeywordResponse "a b"
        [⟨["a"], .str "R1", false⟩, ⟨["a", "b"], .str "R2", false⟩] =
      (([⟨["a"], .str "R1", false⟩, ⟨["a", "b"], .str "R2", false⟩] :
          List PEntry).find? (specMatches "a b")).map responseOf :=
  (findKeywordResponse_first_match "a b"
    [⟨["a"], .str "R1", false⟩, ⟨["a", "b"], .str "R2", false⟩] (by decide)).1

/-! ### Conversation store: bounded logs with FIFO eviction (C4) -/

theorem sliceLast_length_le (n : Nat) (l : List α) : (sliceLast n l).length ≤ n := by
  simp only [sliceLast, List.length_drop]
  omega

theorem sliceLast_suffix (n : Nat) (l : List α) : sliceLast n l <:+ l :=
  List.drop_suffix _ _

/-- A conditional truncation to the last `n` entries never exceeds `n`
when the untruncated branch is guarded by `length > n`. -/
theorem truncIf_length_le (n : Nat) (l : List α) :
    (if l.length > n then sliceLast n l else l).length ≤ n := by
  split
  · exact sliceLast_length_le _ _
  · omega

/-- A conditional truncation to the last `n` entries is always a suffix of
the original list, whatever the condition. -/
theorem truncIf_suffix (n : Nat) (l : List α) (c : Prop) [Decidable c] :
    (if c then sliceLast n l else l) <:+ l := by
  split
  · exact sliceLast_suffix _ _
  · exact List.suffix_refl _

/-- The three size invariants of a chat's state. -/
def stateBounds (s : BotState) : Prop :=
  (getChatState s).history.length ≤ MAX_SAVED_HISTORY ∧
    (getChatState s).quickReplies.length ≤ MAX_SAVED_QUICK_REPLIES ∧
    (s.responses.getD []).length ≤ MAX_SAVED_RESPONSES

instance (s : BotState) : Decidable (stateBounds s) := by
  unfold stateBounds; infer_instance

theorem recordInteraction_stateBounds (s : BotState) (hs : stateBounds s)
    (m r src : String) (ts : Int) :
    stateBounds (recordInteraction s m r src ts) := by
  obtain ⟨hh, hq, hr⟩ := hs
  unfold stateBounds recordInteraction
  simp only [getChatState, Option.getD_some]
  refine ⟨?_, ?_, ?_⟩
  · exact truncIf_length_le _ _
  · by_cases hp : src = "predefined" ∧ m ≠ "" ∧ r ≠ ""
    · simp only [if_pos hp]
      split
      · exact sliceLast_length_le _ _
      · next h2 =>
          rcases not_and_or.mp h2 with hc | hlen
          · exact absurd hp hc
          · omega
    · simp only [if_neg hp]
      rw [if_neg fun hcon => hp hcon.1]
      exact hq
  · cases hrec : normaliseResponseRecord m r src ts with
    | none => simpa [appendResponse, hrec] using hr
    | some rec =>
        simp only [appendResponse, hrec]
        exact truncIf_length_le _ _

theorem applyInteractions_stateBounds (ops : List InteractionArgs) :
    ∀ s : BotState, stateBounds s → stateBounds (applyInteractions s ops) := by
  induction ops with
  | nil => intro s hs; exact hs
  | cons a t ih =>
      intro s hs
      exact ih _ (recordInteraction_stateBounds s hs a.userMessage a.reply a.source a.timestamp)

theorem recordInteraction_fifo (s : BotState) (m r src : String) (ts : Int) :
    (getChatState (recordInteraction s m r src ts)).history <:+
        (getChatState s).history ++
          ((if m ≠ "" then [⟨Role.user, m⟩] else []) ++
            (if r ≠ "" then [⟨Role.assistant, r⟩] else [])) ∧
      (getChatState (recordInteraction s m r src ts)).quickReplies <:+
        (getChatState s).quickReplies ++
          (if src = "predefined" ∧ m ≠ "" ∧ r ≠ "" then [⟨m, r, ts⟩] else []) ∧
      ((recordInteraction s m r src ts).responses.getD []) <:+
        (s.responses.getD []) ++
          (match normaliseResponseRecord m r src ts with
            | none => []
            | some rec => [rec]) := by
  unfold recordInteraction
  simp only [getChatState, Option.getD_some]
  refine ⟨?_, ?_, ?_⟩
  · rw [← List.append_assoc]
    exact truncIf_suffix _ _ _
  · by_cases hp : src = "predefined" ∧ m ≠ "" ∧ r ≠ ""
    · simp only [if_pos hp]
      exact truncIf_suffix _ _ _
    · simp only [if_neg hp]
      rw [if_neg fun hcon => hp hcon.1, List.append_nil]
  · cases hrec : normaliseResponseRecord m r src ts with
    | none =>
        simp only [appendResponse, hrec, List.append_nil]
        exact List.suffix_refl _
    | some rec =>
        simp only [appendResponse, hrec]
        exact truncIf_suffix _ _ _

/-- Claim C4: after any sequence of recorded interactions from a state
satisfying the size invariants, every chat's state still satisfies
`history ≤ MAX_SAVED_HISTORY`, `quickReplies ≤ MAX_SAVED_QUICK_REPLIES`
and `responses ≤ MAX_SAVED_RESPONSES`; and each step evicts oldest-first
(the new logs are suffixes of the old logs plus the appended entries). -/
theorem conversationStore_bounds_fifo (s : BotState) (hs : stateBounds s)
    (ops : List InteractionArgs) :
    stateBounds (applyInteractions s ops) ∧
      ∀ (s' : BotState) (m r src : String) (ts : Int),
        (getChatState (recordInteraction s' m r src ts)).history <:+
            (getChatState s').history ++
              ((if m ≠ "" then [⟨Role.user, m⟩] else []) ++
                (if r ≠ "" then [⟨Role.assistant, r⟩] else [])) ∧
          (getChatState (recordInteraction s' m r src ts)).quickReplies <:+
            (getChatState s').quickReplies ++
              (if src = "predefined" ∧ m ≠ "" ∧ r ≠ "" then [⟨m, r, ts⟩] else []) ∧
          ((recordInteraction s' m r src ts).responses.getD []) <:+
            (s'.responses.getD []) ++
              (match normaliseResponseRecord m r src ts with
                | none => []
                | some rec => [rec]) :=
  ⟨applyInteractions_stateBounds ops s hs,
    fun s' m r src ts => recordInteraction_fifo s' m r src ts⟩

/-- Witness for C4 from the empty state with one recorded interaction. -/
theorem conversationStore_bounds_fifo_witness :
    stateBounds (applyInteractions ⟨none, none, none⟩
      [⟨"hi", "Hello! 👋", "predefined", 0⟩]) :=
  (conversationStore_bounds_fifo ⟨none, none, none⟩ (by decide)
    [⟨"hi", "Hello! 👋", "predefined", 0⟩]).1

/-! ### Bare command prefix: hint reply, frame on chat state (C10) -/

/-- A concrete environment for instantiating the pipeline theorems: no
rules loaded, moderation never flags, the chat service answers, no
mentions. -/
def baseEnv : HandlerEnv where
  botNameInBody := false
  strippedName := ""
  selfMentioned := false
  strippedMentions := ""
  generalRules := []
  predefinedRules := []
  sensitiveRules := []
  moderate := fun _ _ => false
  chatFetch := .ok (some "Hi there!")
  mentionChatUnavailable := false
  mentionIsGroup := false
  mentionText := none
  commandReply := fun _ _ => "OK"
  now := 100000

/-- Claim C10: a private-chat message whose trimmed body is just the
command prefix `!` is answered with the fixed hint pointing at `!help`,
and the interaction leaves the chat's history, quick-reply log and
response log untouched — only the cooldown stamp changes; nothing is
recorded. -/
theorem barePrefix_hint_frame (env : HandlerEnv) (s : BotState)
    (rawBody chatId : String)
    (hpriv : endsWithStr chatId "@s.whatsapp.net" = true)
    (hgrp : endsWithStr chatId "@g.us" = false)
    (hbody : trimStr rawBody = "!") :
    onMessage env s rawBody chatId =
      ⟨[.str emptyCommandHint], { s with cooldown := some env.now }⟩ := by
  have helig : computeEligibility env rawBody chatId = (true, "!") := by
    unfold computeEligibility
    rw [hbody, if_pos hpriv]
  have hgen : tryHandleGeneralMessage env s "!" chatId = ⟨false, [], s⟩ := by
    unfold tryHandleGeneralMessage
    rw [if_pos (Or.inr (by simp [hgrp]))]
  unfold onMessage
  rw [helig]
  simp only [hgen]
  norm_num
  rw [if_pos (by decide : startsWithStr "!" commandPrefixVal = true)]
  rw [if_pos (by decide : trimStr ⟨List.drop commandPrefixVal.length "!".data⟩ = "")]
  rw [if_neg (by decide : ¬("!" = ""))]

/-- Witness for C10 at a concrete private chat and padded `!` body. -/
theorem barePrefix_hint_frame_witness :
    onMessage baseEnv ⟨some ⟨[], []⟩, none, none⟩ " ! " "1@s.whatsapp.net" =
      ⟨[.str emptyCommandHint],
        { cache := some ⟨[], []⟩, responses := none, cooldown := some 100000 }⟩ :=
  barePrefix_hint_frame baseEnv ⟨some ⟨[], []⟩, none, none⟩ " ! "
    "1@s.whatsapp.net" (by decide) (by decide) (by decide)

/-! ### Bot-name stripping in group chats (C2) -/

/-- Claim C2 as frozen predicts that a group message eligible only via the
bot's name, whose body is nothing but the trigger text, terminates with no
reply.  The code keeps the original trimmed body when stripping would
leave it empty, continues the pipeline, and replies — and it records the
unstripped text. -/
theorem groupNameOnly_counterexample :
    (onMessage { baseEnv with botNameInBody := true } ⟨some ⟨[], []⟩, none, none⟩
        "Emponyoo" "123@g.us").sent = [.str "Hi there!"] ∧
      (getChatState (onMessage { baseEnv with botNameInBody := true }
          ⟨some ⟨[], []⟩, none, none⟩ "Emponyoo" "123@g.us").state).history =
        [⟨Role.user, "Emponyoo"⟩, ⟨Role.assistant, "Hi there!"⟩] ∧
      [JResponse.str "Hi there!"] ≠ ([] : List JResponse) := by
  refine ⟨by decide, by decide, by decide⟩

/-- Claim C2 (amended): when a group message is eligible via the bot's
name, the stripped text replaces the message only if it is non-empty;
otherwise the original trimmed body is kept and processing continues (the
handler can still reply, as the concrete run in the second conjunct
shows). -/
theorem groupNameStrip_amended (env : HandlerEnv) (rawBody chatId : String)
    (hpriv : endsWithStr chatId "@s.whatsapp.net" = false)
    (hgrp : endsWithStr chatId "@g.us" = true)
    (hname : env.botNameInBody = true) :
    computeEligibility env rawBody chatId =
        (true, if env.strippedName ≠ "" then env.strippedName else trimStr rawBody) ∧
      (onMessage { baseEnv with botNameInBody := true } ⟨some ⟨[], []⟩, none, none⟩
          "Emponyoo" "123@g.us").sent ≠ [] := by
  constructor
  · unfold computeEligibility
    rw [if_neg (by simp [hpriv]), if_pos hgrp, if_pos hname]
  · decide

/-- Witness for C2 (amended) at a name-only group message. -/
theorem groupNameStrip_amended_witness :
    computeEligibility { baseEnv with botNameInBody := true } "Emponyoo" "123@g.us" =
      (true, "Emponyoo") := by
  have h := (groupNameStrip_amended { baseEnv with botNameInBody := true }
    "Emponyoo" "123@g.us" (by decide) (by decide) rfl).1
  rw [h]
  decide

/-! ### Inline guard order of the group general path (C1) -/

/-- The guard chain of `tryHandleGeneralMessage` as the source orders it:
length limit, then sensitive patterns, then rate limit, then input
moderation; `some (reply, source)` is the canned reply and the recorded
source of the first guard that fires. -/
def inlineGuardVerdict (env : HandlerEnv) (s : BotState) (cleanMessage : String) :
    Option (String × String) :=
  if cleanMessage.length > MAX_MESSAGE_LENGTH then some (lengthWarningReply, "safety")
  else
    match checkSensitivePatterns env.sensitiveRules cleanMessage with
    | some w => some (w, "safety")
    | none =>
        if (isRateLimited s.cooldown env.now).1 then some (rateLimitReply, "system")
        else if env.moderate cleanMessage "input" then
          some (SAFE_FAILURE_MESSAGE, "safety")
        else none

/-- The guard chain in the order the claim asserts: length limit,
sensitive patterns, input moderation, then rate limit. -/
def claimedGuardVerdict (env : HandlerEnv) (s : BotState) (cleanMessage : String) :
    Option (String × String) :=
  if cleanMessage.length > MAX_MESSAGE_LENGTH then some (lengthWarningReply, "safety")
  else
    match checkSensitivePatterns env.sensitiveRules cleanMessage with
    | some w => some (w, "safety")
    | none =>
        if env.moderate cleanMessage "input" then some (SAFE_FAILURE_MESSAGE, "safety")
        else if (isRateLimited s.cooldown env.now).1 then
          some (rateLimitReply, "system")
        else none

/-- A general-table rule matching "hello". -/
def ruleHello : PEntry := ⟨["hello"], .str "Hi!", false⟩

/-- Environment whose moderation flags everything, with the hello rule
loaded, at a clock inside the cooldown window of `sC1`. -/
def envC1 : HandlerEnv :=
  { baseEnv with generalRules := [ruleHello], moderate := fun _ _ => true, now := 1000 }

/-- A chat state whose last reply was stamped at time 0 (rate limited at
time 1000). -/
def sC1 : BotState := ⟨some ⟨[], []⟩, none, some 0⟩

/-- Claim C1 as frozen puts input moderation before the rate limit.  On a
message that is simultaneously rate-limited and moderation-flagged the
claimed order answers with the safe-failure text, but the code answers
with the rate-limit text (source `system`): the rate limit is checked
first. -/
theorem generalGuardOrder_counterexample :
    (tryHandleGeneralMessage envC1 sC1 "hello" "123@g.us").sent =
        [.str rateLimitReply] ∧
      claimedGuardVerdict envC1 sC1 "hello" =
        some (SAFE_FAILURE_MESSAGE, "safety") ∧
      rateLimitReply ≠ SAFE_FAILURE_MESSAGE := by
  refine ⟨by decide, by decide, by decide⟩

theorem isRateLimited_snd_of_limited {c : Option Int} {n : Int}
    (h : (isRateLimited c n).1 = true) : (isRateLimited c n).2 = c := by
  unfold isRateLimited at h ⊢
  by_cases hc : n - c.getD 0 < RATE_LIMIT_MS
  · simp [hc]
  · simp [hc] at h

theorem isRateLimited_snd_of_free {c : Option Int} {n : Int}
    (h : (isRateLimited c n).1 = false) : (isRateLimited c n).2 = some n := by
  unfold isRateLimited at h ⊢
  by_cases hc : n - c.getD 0 < RATE_LIMIT_MS
  · simp [hc] at h
  · simp [hc]

/-- Claim C1 (amended): in group chats, when an ambient general keyword
rule matches a non-command, non-mention-all message, the inline guards are
applied in the order length limit, sensitive patterns, **rate limit, then
input moderation**; the first guard that fires sends its own canned reply,
stamps the cooldown, records the interaction with its source, and
terminates the pipeline. -/
theorem generalGuards_in_order (env : HandlerEnv) (s : BotState)
    (cleanMessage chatId reply source : String)
    (hgrp : endsWithStr chatId "@g.us" = true)
    (hne : cleanMessage ≠ "")
    (hcmd : startsWithStr cleanMessage commandPrefixVal = false)
    (htrig : isMentionAllTrigger cleanMessage = false)
    (hmatch : (findKeywordResponse cleanMessage env.generalRules).isSome = true)
    (hfire : inlineGuardVerdict env s cleanMessage = some (reply, source)) :
    tryHandleGeneralMessage env s cleanMessage chatId =
      sendAndRecord s cleanMessage reply source env.now := by
  have hmention : tryHandleMentionAll env s cleanMessage = none := by
    unfold tryHandleMentionAll
    rw [if_pos (by simp [htrig])]
  obtain ⟨resp, hresp⟩ := Option.isSome_iff_exists.mp hmatch
  unfold tryHandleGeneralMessage
  rw [if_neg (by simp [hne, hgrp]), if_neg (by simp [hcmd])]
  simp only [hmention, hresp]
  unfold inlineGuardVerdict at hfire
  by_cases hlen : cleanMessage.length > MAX_MESSAGE_LENGTH
  · rw [if_pos hlen] at hfire ⊢
    simp only [Option.some.injEq, Prod.mk.injEq] at hfire
    rw [← hfire.1, ← hfire.2]
  · rw [if_neg hlen] at hfire ⊢
    cases hsens : checkSensitivePatterns env.sensitiveRules cleanMessage with
    | some w =>
        rw [hsens] at hfire
        simp only [Option.some.injEq, Prod.mk.injEq] at hfire
        rw [← hfire.1, ← hfire.2]
    | none =>
        rw [hsens] at hfire
        simp only
        cases hrl : (isRateLimited s.cooldown env.now).1 with
        | true =>
            rw [if_pos hrl] at hfire
            simp only [Option.some.injEq, Prod.mk.injEq] at hfire
            rw [if_pos rfl, ← hfire.1, ← hfire.2,
              isRateLimited_snd_of_limited hrl]
        | false =>
            rw [if_neg (by simp [hrl])] at hfire
            rw [if_neg (by simp)]
            cases hmod : env.moderate cleanMessage "input" with
            | true =>
                rw [if_pos hmod] at hfire
                simp only [Option.some.injEq, Prod.mk.injEq] at hfire
                rw [if_pos rfl, ← hfire.1, ← hfire.2,
                  isRateLimited_snd_of_free hrl]
                rfl
            | false =>
                rw [if_neg (by simp [hmod])] at hfire
                exact absurd hfire (by simp)

/-- Environment for the C1 witness: moderation flags everything but the
chat is outside its cooldown window, so the moderation guard is the first
to fire. -/
def envModAll : HandlerEnv :=
  { baseEnv with generalRules := [ruleHello], moderate := fun _ _ => true }

/-- Witness for C1 (amended): the moderation guard firing concretely. -/
theorem generalGuards_in_order_witness :
    tryHandleGeneralMessage envModAll ⟨some ⟨[], []⟩, none, none⟩ "hello" "123@g.us" =
      sendAndRecord ⟨some ⟨[], []⟩, none, none⟩ "hello" SAFE_FAILURE_MESSAGE
        "safety" envModAll.now :=
  generalGuards_in_order envModAll ⟨some ⟨[], []⟩, none, none⟩ "hello" "123@g.us"
    SAFE_FAILURE_MESSAGE "safety" (by decide) (by decide) (by decide) (by decide)
    (by decide) (by decide)

/-! ### Memory recall: best-match scan (C3) -/

/-- The `(bestMatch, bestScore)` accumulator that corresponds to a chosen
best entry. -/
def packedAcc (kset : List String) (o : Option HEntry) : Option HEntry × ℚ :=
  (o, match o with
      | none => 0
      | some e => entryScore kset e)

theorem scanStep_not_candidate (kset : List String) (acc : Option HEntry × ℚ)
    (e : HEntry) (hcand : isCandidate kset e = false) :
    scanStep kset acc e = acc := by
  have h := of_decide_eq_false hcand
  simp only [scanStep]
  by_cases hrole : e.role = Role.user
  · rw [if_neg (by simp [hrole])]
    have hov : entryOverlap kset e = 0 := by
      by_contra hne
      exact h ⟨hrole, Nat.pos_of_ne_zero hne⟩
    unfold entryOverlap at hov
    by_cases hlen : (extractKeywords e.content).length = 0
    · rw [if_pos hlen]
    · rw [if_neg hlen, if_pos hov]
  · rw [if_pos (by simp [hrole])]

theorem scanStep_packed (kset : List String) (hk : kset ≠ []) (o : Option HEntry)
    (e : HEntry) (hcand : isCandidate kset e = true) :
    scanStep kset (packedAcc kset o) e =
      packedAcc kset
        (List.argAux (fun b c => entryScore kset c < entryScore kset b) o e) := by
  obtain ⟨hrole, hov⟩ := of_decide_eq_true hcand
  have hovn : entryOverlap kset e ≠ 0 := Nat.pos_iff_ne_zero.mp hov
  unfold entryOverlap at hovn
  have hlen : ¬ ((extractKeywords e.content).length = 0) := by
    intro h0
    rw [List.length_eq_zero.mp h0] at hovn
    simp at hovn
  have hscore :
      ((List.filter (fun w => kset.contains w) (extractKeywords e.content)).length : ℚ) /
          (kset.length : ℚ) = entryScore kset e := rfl
  simp only [scanStep]
  rw [if_neg (by simp [hrole]), if_neg hlen, if_neg hovn, hscore]
  have hpos : 0 < entryScore kset e := by
    apply div_pos
    · exact_mod_cast hov
    · exact_mod_cast List.length_pos.mpr hk
  cases o with
  | none =>
      simp only [packedAcc, List.argAux]
      rw [if_pos hpos]
  | some c =>
      simp only [packedAcc, List.argAux]
      by_cases hlt : entryScore kset c < entryScore kset e
      · rw [if_pos hlt, if_pos hlt]
      · rw [if_neg hlt, if_neg hlt]

theorem foldl_scanStep_eq (kset : List String) (hk : kset ≠ [])
    (l : List HEntry) :
    ∀ o : Option HEntry,
      l.foldl (scanStep kset) (packedAcc kset o) =
        packedAcc kset ((l.filter (isCandidate kset)).foldl
          (List.argAux fun b c => entryScore kset c < entryScore kset b) o) := by
  induction l with
  | nil => intro o; rfl
  | cons e t ih =>
      intro o
      rw [List.foldl_cons, List.filter_cons]
      by_cases hcand : isCandidate kset e = true
      · rw [scanStep_packed kset hk o e hcand, if_pos hcand, List.foldl_cons]
        exact ih _
      · rw [scanStep_not_candidate kset _ e (Bool.eq_false_iff.mpr hcand),
          if_neg hcand]
        exact ih o

/-- Claim C3 (amended): memory recall computes exactly the spec-side
`amendedRecall`: tokenize the query; pick, among user-authored entries
with positive overlap, the entry of highest score (earliest wins ties,
via `List.argmax`); accept with thresholds 0.6 (for ≤ 2 query tokens) and
0.34 (otherwise); quote the winner verbatim.  Overlap counts the entry's
tokens *with multiplicity* (the source iterates the entry token list),
not the set intersection the original claim stated. -/
theorem findMemoryAnswer_eq_amendedRecall (cs : ChatState) (message : String) :
    findMemoryAnswer cs message = amendedRecall cs message := by
  simp only [findMemoryAnswer, amendedRecall]
  by_cases hz : (extractKeywords message).length = 0
  · rw [if_pos hz, if_pos hz]
  · rw [if_neg hz, if_neg hz]
    have hk : (extractKeywords message).dedup ≠ [] := fun hnil =>
      hz (by rw [(List.dedup_eq_nil _).mp hnil]; rfl)
    have hax : (cs.history.filter (isCandidate (extractKeywords message).dedup)).argmax
          (entryScore (extractKeywords message).dedup) =
        (cs.history.filter (isCandidate (extractKeywords message).dedup)).foldl
          (List.argAux fun b c =>
            entryScore (extractKeywords message).dedup c <
              entryScore (extractKeywords message).dedup b) none := rfl
    have hfold := foldl_scanStep_eq (extractKeywords message).dedup hk cs.history none
    rw [show packedAcc (extractKeywords message).dedup none = (none, (0 : ℚ)) from rfl]
      at hfold
    rw [hfold, hax]
    cases hbest : (cs.history.filter (isCandidate (extractKeywords message).dedup)).foldl
        (List.argAux fun b c =>
          entryScore (extractKeywords message).dedup c <
            entryScore (extractKeywords message).dedup b) none with
    | none => rfl
    | some best => simp [packedAcc, acceptBest]

/-- The chat state of the C3 counterexample: one user entry whose token
list repeats a keyword. -/
def csC3 : ChatState := ⟨[⟨Role.user, "cat cat"⟩], []⟩

/-- Claim C3 as frozen computes overlap as a set intersection.  On the
query "cat dog bird" against the stored entry "cat cat", set-overlap
scores 1/3 < 0.34 and rejects, but the source counts the duplicated token
twice, scores 2/3, and answers with the quoted entry. -/
theorem memoryRecall_overlap_counterexample :
    findMemoryAnswer csC3 "cat dog bird" =
        some "Earlier you mentioned: \"cat cat\"" ∧
      claimRecall csC3 "cat dog bird" = none ∧
      findMemoryAnswer csC3 "cat dog bird" ≠ claimRecall csC3 "cat dog bird" := by
  have hov : (List.filter (fun w => ((extractKeywords "cat dog bird").dedup).contains w)
      (extractKeywords "cat cat")).length = 2 := by decide
  have hcov : claimOverlap (extractKeywords "cat dog bird").dedup
      ⟨Role.user, "cat cat"⟩ = 1 := by decide
  have hlen : ((extractKeywords "cat dog bird").dedup).length = 3 := by decide
  have hkl : (extractKeywords "cat dog bird").length = 3 := by decide
  have e1 : findMemoryAnswer csC3 "cat dog bird" =
      some "Earlier you mentioned: \"cat cat\"" := by
    simp only [findMemoryAnswer]
    rw [if_neg (by decide)]
    have hstep : List.foldl (scanStep (extractKeywords "cat dog bird").dedup)
        (none, (0 : ℚ)) csC3.history =
        (some ⟨Role.user, "cat cat"⟩, ((2 : ℕ) : ℚ) / ((3 : ℕ) : ℚ)) := by
      show scanStep (extractKeywords "cat dog bird").dedup (none, (0 : ℚ))
          ⟨Role.user, "cat cat"⟩ = _
      simp only [scanStep]
      rw [if_neg (by decide), if_neg (by decide)]
      rw [if_neg (by rw [hov]; decide)]
      rw [hov, hlen, if_pos (by norm_num)]
    rw [hstep]
    simp only [hkl]
    rw [if_neg (by norm_num), if_neg (by norm_num)]
    rfl
  have e2 : claimRecall csC3 "cat dog bird" = none := by
    simp only [claimRecall]
    rw [if_neg (by decide)]
    have hfilter : csC3.history.filter
        (isClaimCandidate (extractKeywords "cat dog bird").dedup) = csC3.history := by
      decide
    rw [hfilter]
    have hamax : csC3.history.argmax
        (claimScore (extractKeywords "cat dog bird").dedup) =
        some ⟨Role.user, "cat cat"⟩ := rfl
    rw [hamax]
    simp only [acceptBest, claimScore]
    rw [hcov, hlen, hkl]
    rw [if_neg (by norm_num), if_pos (by norm_num)]
  refine ⟨e1, e2, ?_⟩
  rw [e1, e2]
  simp

end WABot
